import Mathlib

/-!
Shallow embedding of the GraphQL student/course API server (extended variant
of `src/index.js`: filtering, pagination, sorting, signup/login, auth-guarded
mutations) together with the Mongoose models in `src/models`.

Modelling conventions:
* MongoDB ObjectIds are modelled as `String`; MongoDB guarantees a unique
  `_id` index, so `findById`/`save`/`deleteOne` are modelled as first-match
  lookup, replace-by-id, and remove-by-id over the collection list.
* GraphQL nullable input fields are `Option`; JavaScript truthiness tests
  (`if (filter?.minAge)`, `options?.limit || 10`, ...) are modelled exactly:
  an absent value, the number `0` and the empty string are falsy.
* `$regex` substring/prefix filters with the `i` option are modelled as
  case-insensitive substring/prefix matching (the source interpolates the
  raw user string into the pattern; for metacharacter-free strings this is
  the regex's meaning).
* Mongoose `.limit(n)`: a positive `n` caps the result at `n` documents;
  `n = 0` means no limit; a negative `n` is sent to MongoDB as
  `{limit: |n|, singleBatch: true}` (documented driver/server behaviour:
  "a negative limit is similar to a positive limit but closes the cursor
  after returning a single batch"), so it caps the result at `|n|`
  documents.  `.skip(n)` drops `n` documents (a negative skip is rejected
  by the server; we model it as dropping nothing, which no claim depends
  on).
* `bcrypt.hash` and `jwt.sign` are external black boxes: hashing is passed
  in as a function parameter, and a token is modelled by the claim set it
  encodes (`{id, email}` with a 7-day expiry handled by the jwt library).
-/

namespace GraphqlApi

/-- A Student document (`src/models/student.js`): `courses` holds Course ids. -/
structure Student where
  id : String
  name : String
  email : String
  age : Int
  major : String
  courses : List String
deriving Repr, DecidableEq

/-- A Course document (`src/models/courses.js`): `students` holds Student ids. -/
structure Course where
  id : String
  title : String
  code : String
  credits : Int
  instructor : String
  students : List String
deriving Repr, DecidableEq

/-- The two persisted document collections. -/
structure Store where
  students : List Student
  courses : List Course
deriving Repr, DecidableEq

/-- GraphQL `StudentFilter` input: all fields nullable. -/
structure StudentFilter where
  major : Option String := none
  nameContains : Option String := none
  emailContains : Option String := none
  minAge : Option Int := none
  maxAge : Option Int := none
deriving Repr, DecidableEq

/-- GraphQL `CourseFilter` input: all fields nullable. -/
structure CourseFilter where
  codePrefix : Option String := none
  titleContains : Option String := none
  instructor : Option String := none
  minCredits : Option Int := none
  maxCredits : Option Int := none
deriving Repr, DecidableEq

/-- GraphQL `ListOptions` input: all fields nullable. -/
structure ListOptions where
  limit : Option Int := none
  offset : Option Int := none
  sortBy : Option String := none
  sortOrder : Option String := none
deriving Repr, DecidableEq

/-- JavaScript truthiness of a nullable number: `0` and absent are falsy. -/
def truthyInt : Option Int → Bool
  | some n => n != 0
  | none => false

/-- JavaScript truthiness of a nullable string: `""` and absent are falsy. -/
def truthyStr : Option String → Bool
  | some s => s != ""
  | none => false

/-- `x || d` on a nullable number: the default replaces absent and `0`. -/
def jsOrInt (x : Option Int) (d : Int) : Int :=
  match x with
  | some n => if n = 0 then d else n
  | none => d

/-- Does `pat` occur as a contiguous sublist of `l`? -/
def isInfixOfList (pat : List Char) : List Char → Bool
  | [] => pat.isEmpty
  | c :: tl => pat.isPrefixOf (c :: tl) || isInfixOfList pat tl

/-- Case-insensitive substring match: `{$regex: pat, $options: "i"}`. -/
def containsCI (pat s : String) : Bool :=
  isInfixOfList pat.toLower.toList s.toLower.toList

/-- Case-insensitive prefix match: `{$regex: "^" ++ pat, $options: "i"}`. -/
def prefixCI (pat s : String) : Bool :=
  pat.toLower.toList.isPrefixOf s.toLower.toList

/-- The Mongo query built by `getAllStudents`, as a predicate on documents.
Each branch mirrors one `if (filter?...)` truthiness test in the resolver. -/
def studentMatches (f : StudentFilter) (s : Student) : Bool :=
  (if truthyStr f.major then s.major = f.major.getD "" else true) &&
  (if truthyStr f.nameContains then containsCI (f.nameContains.getD "") s.name else true) &&
  (if truthyStr f.emailContains then containsCI (f.emailContains.getD "") s.email else true) &&
  (if truthyInt f.minAge || truthyInt f.maxAge then
    (if truthyInt f.minAge then f.minAge.getD 0 ≤ s.age else true) &&
    (if truthyInt f.maxAge then s.age ≤ f.maxAge.getD 0 else true)
  else true)

/-- The Mongo query built by `getAllCourses`, as a predicate on documents. -/
def courseMatches (f : CourseFilter) (c : Course) : Bool :=
  (if truthyStr f.titleContains then containsCI (f.titleContains.getD "") c.title else true) &&
  (if truthyStr f.codePrefix then prefixCI (f.codePrefix.getD "") c.code else true) &&
  (if truthyStr f.instructor then c.instructor = f.instructor.getD "" else true) &&
  (if truthyInt f.minCredits || truthyInt f.maxCredits then
    (if truthyInt f.minCredits then f.minCredits.getD 0 ≤ c.credits else true) &&
    (if truthyInt f.maxCredits then c.credits ≤ f.maxCredits.getD 0 else true)
  else true)

/-- Stable insertion sort, modelling the store's `.sort({field: order})`. -/
def insertSorted (le : α → α → Bool) (x : α) : List α → List α
  | [] => [x]
  | y :: ys => if le x y then x :: y :: ys else y :: insertSorted le x ys

/-- Sort a result set by a comparator. -/
def mongoSort (le : α → α → Bool) : List α → List α
  | [] => []
  | x :: xs => insertSorted le x (mongoSort le xs)

/-- A BSON-comparable field value: numbers sort before strings. -/
def bsonLe : Option (Int ⊕ String) → Option (Int ⊕ String) → Bool
  | none, _ => true
  | some _, none => false
  | some (.inl a), some (.inl b) => a ≤ b
  | some (.inl _), some (.inr _) => true
  | some (.inr _), some (.inl _) => false
  | some (.inr a), some (.inr b) => a ≤ b

/-- Project a sortable field out of a Student (unknown fields are absent). -/
def studentField (field : String) (s : Student) : Option (Int ⊕ String) :=
  if field = "name" then some (.inr s.name)
  else if field = "email" then some (.inr s.email)
  else if field = "age" then some (.inl s.age)
  else if field = "major" then some (.inr s.major)
  else none

/-- Project a sortable field out of a Course. -/
def courseField (field : String) (c : Course) : Option (Int ⊕ String) :=
  if field = "title" then some (.inr c.title)
  else if field = "code" then some (.inr c.code)
  else if field = "credits" then some (.inl c.credits)
  else if field = "instructor" then some (.inr c.instructor)
  else none

/-- `const order = options.sortOrder === "DESC" ? -1 : 1` then `.sort({[f]: order})`. -/
def fieldLe (key : α → Option (Int ⊕ String)) (sortOrder : Option String) (a b : α) : Bool :=
  if sortOrder = some "DESC" then bsonLe (key b) (key a) else bsonLe (key a) (key b)

/-- Mongoose `.limit(n)`: `0` means unlimited, a negative `n` acts as `|n|`
(single-batch semantics, see the header comment). -/
def mongoLimit (n : Int) (l : List α) : List α :=
  if n = 0 then l else l.take n.natAbs

/-- Mongoose `.skip(n)` with the offset already defaulted. -/
def mongoSkip (n : Int) (l : List α) : List α :=
  l.drop n.toNat

/-- Resolver `Query.getAllStudents` (`src/index.js`): build the filter query,
optionally sort, then `limit = Math.min(options?.limit || 10, 50)`,
`offset = options?.offset || 0`, skip and limit. -/
def getAllStudents (filter : Option StudentFilter) (options : Option ListOptions)
    (st : Store) : List Student :=
  let f := filter.getD {}
  let matched := st.students.filter (studentMatches f)
  let sorted :=
    if truthyStr (options.bind ListOptions.sortBy) then
      mongoSort (fieldLe (studentField ((options.bind ListOptions.sortBy).getD ""))
        (options.bind ListOptions.sortOrder)) matched
    else matched
  let limit := min (jsOrInt (options.bind ListOptions.limit) 10) 50
  let offset := jsOrInt (options.bind ListOptions.offset) 0
  mongoLimit limit (mongoSkip offset sorted)

/-- Resolver `Query.getAllCourses` (`src/index.js`): same pipeline over the
Course collection. -/
def getAllCourses (filter : Option CourseFilter) (options : Option ListOptions)
    (st : Store) : List Course :=
  let f := filter.getD {}
  let matched := st.courses.filter (courseMatches f)
  let sorted :=
    if truthyStr (options.bind ListOptions.sortBy) then
      mongoSort (fieldLe (courseField ((options.bind ListOptions.sortBy).getD ""))
        (options.bind ListOptions.sortOrder)) matched
    else matched
  let limit := min (jsOrInt (options.bind ListOptions.limit) 10) 50
  let offset := jsOrInt (options.bind ListOptions.offset) 0
  mongoLimit limit (mongoSkip offset sorted)

/-! ## Auth: identities, tokens, context -/

/-- An in-memory user record (`users` array): password holds the bcrypt hash. -/
structure UserRec where
  id : String
  email : String
  password : String
deriving Repr, DecidableEq

/-- The claim set a JWT encodes (`createToken`): subject id and email.  The
7-day expiry and the signature are handled by the jwt black box. -/
structure Token where
  id : String
  email : String
deriving Repr, DecidableEq

/-- `createToken(user)`: sign `{id, email}`. -/
def createToken (u : UserRec) : Token :=
  { id := u.id, email := u.email }

/-- The GraphQL `User` type: only `id` and `email` are exposed fields. -/
structure PublicUser where
  id : String
  email : String
deriving Repr, DecidableEq

/-- The GraphQL `AuthPayload` type, after schema projection of `User`. -/
structure AuthPayload where
  token : Token
  user : PublicUser
deriving Repr, DecidableEq

/-- The caller identity the context resolves from the bearer token
(`getUserFromToken`): the decoded claims, or `none` on any failure. -/
abbrev Ctx := Option Token

/-! ## Document-store primitives (unique `_id` index assumed by MongoDB) -/

/-- `Student.findById(id)`. -/
def findStudent (st : Store) (id : String) : Option Student :=
  st.students.find? (fun s => s.id = id)

/-- `Course.findById(id)`. -/
def findCourse (st : Store) (id : String) : Option Course :=
  st.courses.find? (fun c => c.id = id)

/-- `student.save()` on a loaded-and-mutated document: replace by `_id`. -/
def saveStudent (st : Store) (s : Student) : Store :=
  { st with students := st.students.map (fun x => if x.id = s.id then s else x) }

/-- `course.save()`: replace by `_id`. -/
def saveCourse (st : Store) (c : Course) : Store :=
  { st with courses := st.courses.map (fun x => if x.id = c.id then c else x) }

/-! ## Mutation resolvers -/

/-- GraphQL `StudentInput` for `addStudent` (the success path needs `name`,
`email`, `age`; a missing one fails in the resolver or in Mongoose
validation with no write, which the error cases of the claims cover). -/
structure StudentInput where
  name : String
  email : String
  age : Int
  major : Option String := none
deriving Repr, DecidableEq

/-- GraphQL `StudentUpdateInput`: every field optional (patch semantics). -/
structure StudentUpdateInput where
  name : Option String := none
  email : Option String := none
  age : Option Int := none
  major : Option String := none
deriving Repr, DecidableEq

/-- GraphQL `CourseInput` for `addCourse`: all fields required. -/
structure CourseInput where
  title : String
  code : String
  credits : Int
  instructor : String
deriving Repr, DecidableEq

/-- GraphQL `CourseUpdateInput`: every field optional (patch semantics). -/
structure CourseUpdateInput where
  title : Option String := none
  code : Option String := none
  credits : Option Int := none
  instructor : Option String := none
deriving Repr, DecidableEq

/-- Mutation `signup` (`src/index.js`): duplicate-email check (case-insensitive),
`@` check, length check, then store the bcrypt hash and return token + user.
`hash` is the bcrypt black box and `newId` the `Date.now()`-derived id. -/
def signup (hash : String → String) (newId : String) (email password : String)
    (users : List UserRec) : Except String (AuthPayload × List UserRec) :=
  if (users.find? (fun u => u.email.toLower = email.toLower)).isSome then
    .error "Email already exists"
  else if !(email.toList.contains '@') then .error "Invalid email"
  else if password.length < 6 then .error "Password too short"
  else
    let newUser : UserRec := { id := newId, email := email, password := hash password }
    .ok ({ token := createToken newUser,
           user := { id := newUser.id, email := newUser.email } }, users ++ [newUser])

/-- Mutation `login`: case-insensitive email lookup, bcrypt compare.  `check`
is the bcrypt comparison black box (plaintext, stored hash). -/
def login (check : String → String → Bool) (email password : String)
    (users : List UserRec) : Except String AuthPayload :=
  match users.find? (fun u => u.email.toLower = email.toLower) with
  | none => .error "User not found"
  | some u =>
    if !(check password u.password) then .error "Invalid password"
    else .ok { token := createToken u, user := { id := u.id, email := u.email } }

/-- Mutation `addStudent`: auth gate, `@` check, age check, case-insensitive
unique-email check, then save a fresh document (`courses` defaults to `[]`).
`newId` is the ObjectId MongoDB assigns. -/
def addStudent (ctx : Ctx) (input : StudentInput) (newId : String) (st : Store) :
    Except String (Student × Store) :=
  if ctx.isNone then .error "UNAUTHENTICATED"
  else if !(input.email.toList.contains '@') then .error "Invalid email"
  else if input.age < 16 then .error "Student must be >= 16"
  else if (st.students.find? (fun s => s.email.toLower = input.email.toLower)).isSome then
    .error "Email already exists"
  else
    let s : Student := { id := newId, name := input.name, email := input.email,
                         age := input.age, major := input.major.getD "", courses := [] }
    .ok (s, { st with students := st.students ++ [s] })

/-- Mutation `updateStudent`: auth gate, `@` check on a *truthy* provided email
(`input.email && !input.email.includes("@")` — an empty string skips the
check), then `findByIdAndUpdate` patching only the provided fields
(validators are not run on update). -/
def updateStudent (ctx : Ctx) (id : String) (input : StudentUpdateInput) (st : Store) :
    Except String (Student × Store) :=
  if ctx.isNone then .error "UNAUTHENTICATED"
  else if (match input.email with
           | some e => e ≠ "" && !(e.toList.contains '@')
           | none => false) then .error "Invalid email"
  else
    match findStudent st id with
    | none => .error "Student not found"
    | some s =>
      let s' : Student := { s with name := input.name.getD s.name,
                                   email := input.email.getD s.email,
                                   age := input.age.getD s.age,
                                   major := input.major.getD s.major }
      .ok (s', saveStudent st s')

/-- Mutation `deleteStudent`: auth gate; a missing id returns `false`;
otherwise `Course.updateMany({}, {$pull: {students: id}})` over the whole
Course collection, then delete the document. -/
def deleteStudent (ctx : Ctx) (id : String) (st : Store) :
    Except String (Bool × Store) :=
  if ctx.isNone then .error "UNAUTHENTICATED"
  else
    match findStudent st id with
    | none => .ok (false, st)
    | some _ =>
      let st1 : Store :=
        { st with courses :=
            st.courses.map (fun c => { c with students := c.students.filter (fun x => x ≠ id) }) }
      .ok (true, { st1 with students := st1.students.filter (fun s => s.id ≠ id) })

/-- Mutation `addCourse`: auth gate, credits range check, case-insensitive
unique-code check, then save a fresh document (`students` defaults to `[]`). -/
def addCourse (ctx : Ctx) (input : CourseInput) (newId : String) (st : Store) :
    Except String (Course × Store) :=
  if ctx.isNone then .error "UNAUTHENTICATED"
  else if input.credits < 1 || 6 < input.credits then
    .error "Credits must be between 1 and 6"
  else if (st.courses.find? (fun c => c.code.toLower = input.code.toLower)).isSome then
    .error "Course code already exists"
  else
    let c : Course := { id := newId, title := input.title, code := input.code,
                        credits := input.credits, instructor := input.instructor,
                        students := [] }
    .ok (c, { st with courses := st.courses ++ [c] })

/-- Mutation `updateCourse`: auth gate, then `findByIdAndUpdate` patching only
the provided fields — no validation of any field in the resolver, and
validators are not run on update. -/
def updateCourse (ctx : Ctx) (id : String) (input : CourseUpdateInput) (st : Store) :
    Except String (Course × Store) :=
  if ctx.isNone then .error "UNAUTHENTICATED"
  else
    match findCourse st id with
    | none => .error "Course not found"
    | some c =>
      let c' : Course := { c with title := input.title.getD c.title,
                                  code := input.code.getD c.code,
                                  credits := input.credits.getD c.credits,
                                  instructor := input.instructor.getD c.instructor }
      .ok (c', saveCourse st c')

/-- Mutation `deleteCourse`: auth gate; a missing id returns `false`;
otherwise `Student.updateMany({}, {$pull: {courses: id}})` over the whole
Student collection, then delete the document. -/
def deleteCourse (ctx : Ctx) (id : String) (st : Store) :
    Except String (Bool × Store) :=
  if ctx.isNone then .error "UNAUTHENTICATED"
  else
    match findCourse st id with
    | none => .ok (false, st)
    | some _ =>
      let st1 : Store :=
        { st with students :=
            st.students.map (fun s => { s with courses := s.courses.filter (fun x => x ≠ id) }) }
      .ok (true, { st1 with courses := st1.courses.filter (fun c => c.id ≠ id) })

/-- Mutation `enrollStudent`: auth gate, resolve both ids, push each id onto
the other document's array unless already present (`includes` on a Mongoose
ObjectId array casts, so it compares by id), save both documents. -/
def enrollStudent (ctx : Ctx) (studentId courseId : String) (st : Store) :
    Except String (Student × Store) :=
  if ctx.isNone then .error "UNAUTHENTICATED"
  else
    match findStudent st studentId, findCourse st courseId with
    | some student, some course =>
      let student' := if courseId ∈ student.courses then student
                      else { student with courses := student.courses ++ [courseId] }
      let course' := if studentId ∈ course.students then course
                     else { course with students := course.students ++ [studentId] }
      .ok (student', saveCourse (saveStudent st student') course')
    | _, _ => .error "Invalid IDs"

/-- Mutation `unenrollStudent`: auth gate, resolve both ids, `pull` each id
from the other document's array (removing an absent element is a no-op),
save both documents. -/
def unenrollStudent (ctx : Ctx) (studentId courseId : String) (st : Store) :
    Except String (Student × Store) :=
  if ctx.isNone then .error "UNAUTHENTICATED"
  else
    match findStudent st studentId, findCourse st courseId with
    | some student, some course =>
      let student' := { student with courses := student.courses.filter (fun x => x ≠ courseId) }
      let course' := { course with students := course.students.filter (fun x => x ≠ studentId) }
      .ok (student', saveCourse (saveStudent st student') course')
    | _, _ => .error "Invalid IDs"

/-! ## Reachability and the bidirectional invariant -/

/-- The store at first startup: both collections empty. -/
def emptyStore : Store := { students := [], courses := [] }

/-- One completed mutation against the store.  The `newId` MongoDB assigns to
a freshly inserted document is unique in its collection (the `_id` unique
index), which the two `hfresh` hypotheses record. -/
inductive Step : Store → Store → Prop where
  | stepAddStudent (ctx : Ctx) (input : StudentInput) (newId : String) (ret : Student)
      (st st' : Store) (hfresh : findStudent st newId = none)
      (h : addStudent ctx input newId st = .ok (ret, st')) : Step st st'
  | stepUpdateStudent (ctx : Ctx) (id : String) (input : StudentUpdateInput) (ret : Student)
      (st st' : Store) (h : updateStudent ctx id input st = .ok (ret, st')) : Step st st'
  | stepDeleteStudent (ctx : Ctx) (id : String) (ret : Bool) (st st' : Store)
      (h : deleteStudent ctx id st = .ok (ret, st')) : Step st st'
  | stepAddCourse (ctx : Ctx) (input : CourseInput) (newId : String) (ret : Course)
      (st st' : Store) (hfresh : findCourse st newId = none)
      (h : addCourse ctx input newId st = .ok (ret, st')) : Step st st'
  | stepUpdateCourse (ctx : Ctx) (id : String) (input : CourseUpdateInput) (ret : Course)
      (st st' : Store) (h : updateCourse ctx id input st = .ok (ret, st')) : Step st st'
  | stepDeleteCourse (ctx : Ctx) (id : String) (ret : Bool) (st st' : Store)
      (h : deleteCourse ctx id st = .ok (ret, st')) : Step st st'
  | stepEnroll (ctx : Ctx) (studentId courseId : String) (ret : Student) (st st' : Store)
      (h : enrollStudent ctx studentId courseId st = .ok (ret, st')) : Step st st'
  | stepUnenroll (ctx : Ctx) (studentId courseId : String) (ret : Student) (st st' : Store)
      (h : unenrollStudent ctx studentId courseId st = .ok (ret, st')) : Step st st'

/-- States reachable from the empty store by completed mutations. -/
def Reachable (st : Store) : Prop :=
  Relation.ReflTransGen Step emptyStore st

/-- The strengthened store invariant: the bidirectional relation, both id-array
fields referencing only existing documents, and unique ids per collection. -/
structure Inv (st : Store) : Prop where
  bidir : ∀ s ∈ st.students, ∀ c ∈ st.courses, (c.id ∈ s.courses ↔ s.id ∈ c.students)
  coursesValid : ∀ s ∈ st.students, ∀ cid ∈ s.courses, ∃ c ∈ st.courses, c.id = cid
  studentsValid : ∀ c ∈ st.courses, ∀ sid ∈ c.students, ∃ s ∈ st.students, s.id = sid
  sNodup : (st.students.map Student.id).Nodup
  cNodup : (st.courses.map Course.id).Nodup

/-! ## Concrete fixtures for witnesses and counterexamples -/

/-- A student document every empty filter matches. -/
def blankStudent : Student :=
  { id := "s0", name := "", email := "", age := 0, major := "", courses := [] }

/-- A store of 51 identical students, for exercising the pagination cap. -/
def bigStore : Store := { students := List.replicate 51 blankStudent, courses := [] }

/-- An 18-year-old student, for exercising the age range filter. -/
def alice : Student :=
  { id := "s1", name := "Alice", email := "alice@u.edu", age := 18, major := "", courses := [] }

/-- A demo course. -/
def mathCourse : Course :=
  { id := "c1", title := "Math", code := "M1", credits := 3, instructor := "Noe", students := [] }

/-- A store holding `alice` and `mathCourse`, unenrolled. -/
def demoStore : Store := { students := [alice], courses := [mathCourse] }

/-- The same store after `alice` enrolled in `mathCourse`. -/
def demoStoreEnrolled : Store :=
  { students := [{ alice with courses := ["c1"] }],
    courses := [{ mathCourse with students := ["s1"] }] }

/-- A decoded caller identity, for authenticated calls. -/
def demoToken : Token := { id := "u1", email := "admin@u.edu" }

/-- A one-sidedly drifted store: the course lists `alice` but `alice`'s own
`courses` array does not list the course. -/
def driftStore : Store :=
  { students := [alice], courses := [{ mathCourse with students := ["s1"] }] }

/-! ## Helper lemmas about the store primitives -/

theorem find?_map_of_pred_eq {α : Type} (f : α → α) (p : α → Bool)
    (hf : ∀ x, p (f x) = p x) (l : List α) :
    (l.map f).find? p = (l.find? p).map f := by
  induction l with
  | nil => rfl
  | cons hd tl ih =>
    rw [List.map_cons, List.find?_cons, List.find?_cons, hf]
    cases h : p hd
    · exact ih
    · rfl

theorem findStudent_saveStudent (st : Store) (s' : Student) (id : String) :
    findStudent (saveStudent st s') id =
      (findStudent st id).map (fun x => if x.id = s'.id then s' else x) :=
  find?_map_of_pred_eq _ _
    (fun x => by by_cases h : x.id = s'.id <;> simp [h]) st.students

theorem findCourse_saveCourse (st : Store) (c' : Course) (id : String) :
    findCourse (saveCourse st c') id =
      (findCourse st id).map (fun x => if x.id = c'.id then c' else x) :=
  find?_map_of_pred_eq _ _
    (fun x => by by_cases h : x.id = c'.id <;> simp [h]) st.courses

theorem findCourse_saveStudent (st : Store) (s : Student) (id : String) :
    findCourse (saveStudent st s) id = findCourse st id := rfl

theorem findStudent_saveCourse (st : Store) (c : Course) (id : String) :
    findStudent (saveCourse st c) id = findStudent st id := rfl

theorem saveStudent_saveCourse (st : Store) (s : Student) (c : Course) :
    saveStudent (saveCourse st c) s = saveCourse (saveStudent st s) c := rfl

theorem saveStudent_idem (st : Store) (s : Student) :
    saveStudent (saveStudent st s) s = saveStudent st s := by
  unfold saveStudent
  simp only [List.map_map]
  congr 1
  apply List.map_congr_left
  intro a _
  by_cases h : a.id = s.id <;> simp [h]

theorem saveCourse_idem (st : Store) (c : Course) :
    saveCourse (saveCourse st c) c = saveCourse st c := by
  unfold saveCourse
  simp only [List.map_map]
  congr 1
  apply List.map_congr_left
  intro a _
  by_cases h : a.id = c.id <;> simp [h]

theorem findStudent_some_id {st : Store} {id : String} {s : Student}
    (h : findStudent st id = some s) : s.id = id := by
  have := List.find?_some h
  simpa using this

theorem findStudent_some_mem {st : Store} {id : String} {s : Student}
    (h : findStudent st id = some s) : s ∈ st.students :=
  List.mem_of_find?_eq_some h

theorem findCourse_some_id {st : Store} {id : String} {c : Course}
    (h : findCourse st id = some c) : c.id = id := by
  have := List.find?_some h
  simpa using this

theorem findCourse_some_mem {st : Store} {id : String} {c : Course}
    (h : findCourse st id = some c) : c ∈ st.courses :=
  List.mem_of_find?_eq_some h

/-! ## Claim theorems -/

/-- **C6**: every mutation except signup and login, called with a null caller
identity (missing/malformed/expired token), fails with an Unauthenticated
error and produces no updated store (the error carries no store, so both
collections are untouched). -/
theorem mutations_require_auth :
    (∀ input newId st, addStudent none input newId st = .error "UNAUTHENTICATED") ∧
    (∀ id input st, updateStudent none id input st = .error "UNAUTHENTICATED") ∧
    (∀ id st, deleteStudent none id st = .error "UNAUTHENTICATED") ∧
    (∀ input newId st, addCourse none input newId st = .error "UNAUTHENTICATED") ∧
    (∀ id input st, updateCourse none id input st = .error "UNAUTHENTICATED") ∧
    (∀ id st, deleteCourse none id st = .error "UNAUTHENTICATED") ∧
    (∀ sid cid st, enrollStudent none sid cid st = .error "UNAUTHENTICATED") ∧
    (∀ sid cid st, unenrollStudent none sid cid st = .error "UNAUTHENTICATED") :=
  ⟨fun _ _ _ => rfl, fun _ _ _ => rfl, fun _ _ => rfl, fun _ _ _ => rfl,
   fun _ _ _ => rfl, fun _ _ => rfl, fun _ _ _ => rfl, fun _ _ _ => rfl⟩

/-- **C10**: the update mutations apply any provided `credits`/`age` value
without range validation (only `addCourse`/`addStudent` enforce
`credits ∈ [1,6]` and `age ≥ 16`); `updateCourse` checks only auth and
existence, `updateStudent` additionally only the email format. -/
theorem update_skips_range_validation :
    (∀ (u : Token) (st : Store) (id : String) (c : Course) (v : Int),
       findCourse st id = some c →
       updateCourse (some u) id { credits := some v } st =
         .ok ({ c with credits := v }, saveCourse st { c with credits := v })) ∧
    (∀ (u : Token) (st : Store) (id : String) (s : Student) (v : Int),
       findStudent st id = some s →
       updateStudent (some u) id { age := some v } st =
         .ok ({ s with age := v }, saveStudent st { s with age := v })) ∧
    (∀ (u : Token) (input : CourseInput) (newId : String) (st : Store),
       input.credits < 1 ∨ 6 < input.credits →
       addCourse (some u) input newId st = .error "Credits must be between 1 and 6") ∧
    (∀ (u : Token) (input : StudentInput) (newId : String) (st : Store),
       input.email.toList.contains '@' = true → input.age < 16 →
       addStudent (some u) input newId st = .error "Student must be >= 16") := by
  refine ⟨?_, ?_, ?_, ?_⟩
  · intro u st id c v h
    simp [updateCourse, h]
  · intro u st id s v h
    simp [updateStudent, h]
  · intro u input newId st h
    have hcond : (decide (input.credits < 1) || decide (6 < input.credits)) = true := by
      rcases h with h | h <;> simp [h]
    simp [addCourse, hcond]
  · intro u input newId st h1 h2
    have h1' : '@' ∈ input.email.data := by simpa using h1
    simp [addStudent, h1', h2]

/-- Witness for C10 at a concrete store: credits 7 is accepted by update. -/
theorem update_skips_range_validation_witness :
    updateCourse (some demoToken) "c1" { credits := some 7 } demoStore =
      .ok ({ mathCourse with credits := 7 },
           saveCourse demoStore { mathCourse with credits := 7 }) :=
  update_skips_range_validation.1 demoToken demoStore "c1" mathCourse 7 (by decide)

/-- **C9**: signup fails iff the email already exists case-insensitively, or
lacks `@`, or the password is shorter than 6; on success it stores only the
salted hash and returns a token plus the public `{id, email}` view (the
GraphQL `User` type has no password field). -/
theorem signup_spec (hash : String → String) (newId email password : String)
    (users : List UserRec) :
    ((∃ msg, signup hash newId email password users = .error msg) ↔
      ((∃ u ∈ users, u.email.toLower = email.toLower) ∨
        email.toList.contains '@' = false ∨ password.length < 6)) ∧
    (¬((∃ u ∈ users, u.email.toLower = email.toLower) ∨
        email.toList.contains '@' = false ∨ password.length < 6) →
      signup hash newId email password users =
        .ok ({ token := { id := newId, email := email },
               user := { id := newId, email := email } },
             users ++ [{ id := newId, email := email, password := hash password }])) := by
  have hex : (users.find? (fun u => u.email.toLower = email.toLower)).isSome = true ↔
      ∃ u ∈ users, u.email.toLower = email.toLower := by
    rw [List.find?_isSome]
    simp
  unfold signup
  by_cases h1 : (users.find? (fun u => u.email.toLower = email.toLower)).isSome = true
  · simp only [h1, if_true]
    constructor
    · constructor
      · intro _
        exact .inl (hex.mp h1)
      · intro _
        exact ⟨"Email already exists", rfl⟩
    · intro hno
      exact absurd (.inl (hex.mp h1)) hno
  · rw [Bool.not_eq_true] at h1
    simp only [h1, Bool.false_eq_true, if_false]
    by_cases h2 : email.toList.contains '@'
    · simp only [h2, Bool.not_true, Bool.false_eq_true, if_false]
      by_cases h3 : password.length < 6
      · simp only [if_pos h3]
        constructor
        · constructor
          · intro _
            exact .inr (.inr h3)
          · intro _
            exact ⟨"Password too short", rfl⟩
        · intro hno
          exact absurd (.inr (.inr h3)) hno
      · simp only [if_neg h3]
        constructor
        · constructor
          · rintro ⟨msg, hmsg⟩
            exact absurd hmsg (by simp)
          · rintro (hdup | hat | hshort)
            · exact absurd (hex.mpr hdup) (by simp [h1])
            · exact absurd hat (by simp [h2])
            · exact absurd hshort h3
        · intro _
          rfl
    · rw [Bool.not_eq_true] at h2
      simp only [h2, Bool.not_false, if_true]
      constructor
      · constructor
        · intro _
          exact .inr (.inl (by simp [h2]))
        · intro _
          exact ⟨"Invalid email", rfl⟩
      · intro hno
        exact absurd (.inr (.inl (by simp [h2]))) hno

/-- Witness for C9: a fresh signup on an empty identity list succeeds and
stores the hash while returning only the public view. -/
theorem signup_spec_witness :
    signup (fun p => "#" ++ p) "id1" "a@b.com" "secret1" [] =
      .ok ({ token := { id := "id1", email := "a@b.com" },
             user := { id := "id1", email := "a@b.com" } },
           [{ id := "id1", email := "a@b.com", password := "#" ++ "secret1" }]) :=
  (signup_spec (fun p => "#" ++ p) "id1" "a@b.com" "secret1" []).2 (by decide)

/-! ## Query-layer lemmas -/

theorem getAllStudents_eq (f : Option StudentFilter) (o : Option ListOptions) (st : Store) :
    getAllStudents f o st =
      mongoLimit (min (jsOrInt (o.bind ListOptions.limit) 10) 50)
        (mongoSkip (jsOrInt (o.bind ListOptions.offset) 0)
          (if truthyStr (o.bind ListOptions.sortBy) then
            mongoSort (fieldLe (studentField ((o.bind ListOptions.sortBy).getD ""))
              (o.bind ListOptions.sortOrder)) (st.students.filter (studentMatches (f.getD {})))
          else st.students.filter (studentMatches (f.getD {})))) := rfl

theorem getAllCourses_eq (f : Option CourseFilter) (o : Option ListOptions) (st : Store) :
    getAllCourses f o st =
      mongoLimit (min (jsOrInt (o.bind ListOptions.limit) 10) 50)
        (mongoSkip (jsOrInt (o.bind ListOptions.offset) 0)
          (if truthyStr (o.bind ListOptions.sortBy) then
            mongoSort (fieldLe (courseField ((o.bind ListOptions.sortBy).getD ""))
              (o.bind ListOptions.sortOrder)) (st.courses.filter (courseMatches (f.getD {})))
          else st.courses.filter (courseMatches (f.getD {})))) := rfl

theorem length_mongoLimit_le {α : Type} (n : Int) (hn : n ≠ 0) (l : List α) :
    (mongoLimit n l).length ≤ n.natAbs := by
  simp only [mongoLimit, if_neg hn, List.length_take]
  exact min_le_left _ _

theorem defaulted_limit_bounds (v : Option Int) (h : ∀ x, v = some x → 0 ≤ x) :
    1 ≤ min (jsOrInt v 10) 50 ∧ min (jsOrInt v 10) 50 ≤ 50 := by
  cases v with
  | none => simp [jsOrInt]
  | some x =>
    have hx := h x rfl
    simp only [jsOrInt]
    split_ifs with h0 <;> omega

theorem getAllStudents_none_options (f : Option StudentFilter) (st : Store) :
    getAllStudents f none st = (st.students.filter (studentMatches (f.getD {}))).take 10 := by
  rw [getAllStudents_eq]
  simp [truthyStr, jsOrInt, mongoLimit, mongoSkip]

theorem getAllCourses_none_options (f : Option CourseFilter) (st : Store) :
    getAllCourses f none st = (st.courses.filter (courseMatches (f.getD {}))).take 10 := by
  rw [getAllCourses_eq]
  simp [truthyStr, jsOrInt, mongoLimit, mongoSkip]

/-- **C2**, amended: with an absent or non-negative requested limit the result
size never exceeds 50, an absent limit defaults to 10 and an absent offset
to 0; (the original "no requested limit value can cause more than 50
results" fails for negative limits, see the counterexample). -/
theorem result_size_capped (f : Option StudentFilter) (g : Option CourseFilter)
    (o : Option ListOptions) (st : Store)
    (h : ∀ v, o.bind ListOptions.limit = some v → 0 ≤ v) :
    (getAllStudents f o st).length ≤ 50 ∧ (getAllCourses g o st).length ≤ 50 ∧
    getAllStudents f none st = (st.students.filter (studentMatches (f.getD {}))).take 10 ∧
    getAllCourses g none st = (st.courses.filter (courseMatches (g.getD {}))).take 10 := by
  obtain ⟨h1, h50⟩ := defaulted_limit_bounds (o.bind ListOptions.limit) h
  refine ⟨?_, ?_, getAllStudents_none_options f st, getAllCourses_none_options g st⟩
  · rw [getAllStudents_eq]
    have := length_mongoLimit_le (min (jsOrInt (o.bind ListOptions.limit) 10) 50)
      (by omega) (mongoSkip (jsOrInt (o.bind ListOptions.offset) 0)
        (if truthyStr (o.bind ListOptions.sortBy) then
          mongoSort (fieldLe (studentField ((o.bind ListOptions.sortBy).getD ""))
            (o.bind ListOptions.sortOrder)) (st.students.filter (studentMatches (f.getD {})))
        else st.students.filter (studentMatches (f.getD {}))))
    omega
  · rw [getAllCourses_eq]
    have := length_mongoLimit_le (min (jsOrInt (o.bind ListOptions.limit) 10) 50)
      (by omega) (mongoSkip (jsOrInt (o.bind ListOptions.offset) 0)
        (if truthyStr (o.bind ListOptions.sortBy) then
          mongoSort (fieldLe (courseField ((o.bind ListOptions.sortBy).getD ""))
            (o.bind ListOptions.sortOrder)) (st.courses.filter (courseMatches (g.getD {})))
        else st.courses.filter (courseMatches (g.getD {}))))
    omega

/-- Witness for the amended C2 at a concrete call. -/
theorem result_size_capped_witness :
    (getAllStudents none (some { limit := some 1000 }) bigStore).length ≤ 50 :=
  (result_size_capped none none (some { limit := some 1000 }) bigStore
    (by intro v hv; simp at hv; omega)).1

/-- Counterexample to C2 as stated: a requested limit of `-51` survives
`Math.min(-51, 50)` and MongoDB treats a negative limit as a single-batch
cap of its absolute value, so 51 documents come back. -/
theorem result_size_cap_bypassed :
    50 < (getAllStudents none (some { limit := some (-51) }) bigStore).length := by
  decide

theorem studentMatches_range (m M : Int) (hm : m ≠ 0) (hM : M ≠ 0) (s : Student) :
    studentMatches { minAge := some m, maxAge := some M } s =
      (decide (m ≤ s.age) && decide (s.age ≤ M)) := by
  simp [studentMatches, truthyInt, truthyStr, hm, hM]

theorem studentMatches_min (m : Int) (hm : m ≠ 0) (s : Student) :
    studentMatches { minAge := some m } s = decide (m ≤ s.age) := by
  simp [studentMatches, truthyInt, truthyStr, hm]

theorem courseMatches_range (m M : Int) (hm : m ≠ 0) (hM : M ≠ 0) (c : Course) :
    courseMatches { minCredits := some m, maxCredits := some M } c =
      (decide (m ≤ c.credits) && decide (c.credits ≤ M)) := by
  simp [courseMatches, truthyInt, truthyStr, hm, hM]

theorem courseMatches_max (M : Int) (hM : M ≠ 0) (c : Course) :
    courseMatches { maxCredits := some M } c = decide (c.credits ≤ M) := by
  simp [courseMatches, truthyInt, truthyStr, hM]

/-- **C8**, amended: a range bound is applied whenever it is given *and
nonzero* (a bound of `0` is falsy in JavaScript and is ignored, see the
counterexample); with nonzero bounds the query returns exactly the documents
in the inclusive range, truncated to the default pagination of 10. -/
theorem range_filters_apply (st : Store) (m M : Int) (hm : m ≠ 0) (hM : M ≠ 0) :
    getAllStudents (some { minAge := some m, maxAge := some M }) none st =
      (st.students.filter (fun s => decide (m ≤ s.age) && decide (s.age ≤ M))).take 10 ∧
    getAllCourses (some { minCredits := some m, maxCredits := some M }) none st =
      (st.courses.filter (fun c => decide (m ≤ c.credits) && decide (c.credits ≤ M))).take 10 ∧
    getAllStudents (some { minAge := some m }) none st =
      (st.students.filter (fun s => decide (m ≤ s.age))).take 10 ∧
    getAllCourses (some { maxCredits := some M }) none st =
      (st.courses.filter (fun c => decide (c.credits ≤ M))).take 10 := by
  refine ⟨?_, ?_, ?_, ?_⟩
  · rw [getAllStudents_none_options]
    exact congrArg (List.take 10)
      (List.filter_congr (fun s _ => studentMatches_range m M hm hM s))
  · rw [getAllCourses_none_options]
    exact congrArg (List.take 10)
      (List.filter_congr (fun c _ => courseMatches_range m M hm hM c))
  · rw [getAllStudents_none_options]
    exact congrArg (List.take 10)
      (List.filter_congr (fun s _ => studentMatches_min m hm s))
  · rw [getAllCourses_none_options]
    exact congrArg (List.take 10)
      (List.filter_congr (fun c _ => courseMatches_max M hM c))

/-- Witness for the amended C8: the 18-year-old passes an `[18,20]` filter. -/
theorem range_filters_apply_witness :
    getAllStudents (some { minAge := some 18, maxAge := some 20 }) none demoStore =
      (demoStore.students.filter
        (fun s => decide ((18:Int) ≤ s.age) && decide (s.age ≤ (20:Int)))).take 10 :=
  (range_filters_apply demoStore 18 20 (by decide) (by decide)).1

/-- Counterexample to C8 as stated: with bounds `{minAge: 0, maxAge: 0}` the
range constraint is dropped (JavaScript `0` is falsy), so an 18-year-old is
returned even though `18 ∉ [0,0]`. -/
theorem range_filter_zero_bound_ignored :
    getAllStudents (some { minAge := some 0, maxAge := some 0 }) none demoStore = [alice] ∧
    ¬((0:Int) ≤ alice.age ∧ alice.age ≤ 0) := by
  decide

/-! ## Enrollment coordinator claims -/

/-- **C3**: with a valid caller identity, `enrollStudent` fails with NotFound
("Invalid IDs") iff either id does not resolve; otherwise both updated
documents are persisted — an immediate read of either entity shows the
pairing on both sides — and the updated student is returned. -/
theorem enrollStudent_spec (u : Token) (sid cid : String) (st : Store) :
    (enrollStudent (some u) sid cid st = .error "Invalid IDs" ↔
      (findStudent st sid = none ∨ findCourse st cid = none)) ∧
    (∀ ret st', enrollStudent (some u) sid cid st = .ok (ret, st') →
      ∃ s' c', findStudent st' sid = some s' ∧ findCourse st' cid = some c' ∧
        cid ∈ s'.courses ∧ sid ∈ c'.students ∧ ret = s') := by
  cases hs : findStudent st sid with
  | none =>
    constructor
    · simp [enrollStudent, hs]
    · intro ret st' h
      simp [enrollStudent, hs] at h
  | some student =>
    cases hc : findCourse st cid with
    | none =>
      constructor
      · simp [enrollStudent, hs, hc]
      · intro ret st' h
        simp [enrollStudent, hs, hc] at h
    | some course =>
      have hsid : student.id = sid := findStudent_some_id hs
      have hcid : course.id = cid := findCourse_some_id hc
      constructor
      · simp [enrollStudent, hs, hc]
      · intro ret st' h
        simp only [enrollStudent, hs, hc, Option.isNone_some, Bool.false_eq_true,
          if_false, Except.ok.injEq, Prod.mk.injEq] at h
        obtain ⟨hret, hst⟩ := h
        refine ⟨if cid ∈ student.courses then student
                  else { student with courses := student.courses ++ [cid] },
                if sid ∈ course.students then course
                  else { course with students := course.students ++ [sid] },
                ?_, ?_, ?_, ?_, hret.symm⟩
        · rw [← hst, findStudent_saveCourse, findStudent_saveStudent, hs]
          have : student.id = (if cid ∈ student.courses then student
              else { student with courses := student.courses ++ [cid] }).id := by
            by_cases hmem : cid ∈ student.courses <;> simp [hmem]
          simp [← this]
        · rw [← hst, findCourse_saveCourse, findCourse_saveStudent, hc]
          have : course.id = (if sid ∈ course.students then course
              else { course with students := course.students ++ [sid] }).id := by
            by_cases hmem : sid ∈ course.students <;> simp [hmem]
          simp [← this]
        · by_cases hmem : cid ∈ student.courses <;> simp [hmem]
        · by_cases hmem : sid ∈ course.students <;> simp [hmem]

/-- Witness for C3: enrolling `alice` in `mathCourse` makes the pairing
visible on both sides of an immediate read. -/
theorem enrollStudent_spec_witness :
    ∃ s' c', findStudent demoStoreEnrolled "s1" = some s' ∧
      findCourse demoStoreEnrolled "c1" = some c' ∧
      "c1" ∈ s'.courses ∧ "s1" ∈ c'.students ∧ { alice with courses := ["c1"] } = s' :=
  (enrollStudent_spec demoToken "s1" "c1" demoStore).2
    { alice with courses := ["c1"] } demoStoreEnrolled (by rfl)

/-- **C4**: `enrollStudent` is idempotent — a second call with the same pair
returns the same student and leaves the store exactly as after the first
call (no duplicate is pushed onto either array). -/
theorem enrollStudent_idempotent (u : Token) (sid cid : String) (st st' : Store) (ret : Student)
    (h : enrollStudent (some u) sid cid st = .ok (ret, st')) :
    enrollStudent (some u) sid cid st' = .ok (ret, st') := by
  cases hs : findStudent st sid with
  | none => simp [enrollStudent, hs] at h
  | some student =>
    cases hc : findCourse st cid with
    | none => simp [enrollStudent, hs, hc] at h
    | some course =>
      simp only [enrollStudent, hs, hc, Option.isNone_some, Bool.false_eq_true,
        if_false, Except.ok.injEq, Prod.mk.injEq] at h
      obtain ⟨hret, hst⟩ := h
      set s' : Student := (if cid ∈ student.courses then student
        else { student with courses := student.courses ++ [cid] }) with hs'
      set c' : Course := (if sid ∈ course.students then course
        else { course with students := course.students ++ [sid] }) with hc'
      have hsid' : s'.id = student.id := by
        rw [hs']
        by_cases hmem : cid ∈ student.courses <;> simp [hmem]
      have hcid' : c'.id = course.id := by
        rw [hc']
        by_cases hmem : sid ∈ course.students <;> simp [hmem]
      have hm1 : cid ∈ s'.courses := by
        rw [hs']
        by_cases hmem : cid ∈ student.courses <;> simp [hmem]
      have hm2 : sid ∈ c'.students := by
        rw [hc']
        by_cases hmem : sid ∈ course.students <;> simp [hmem]
      have hfind1 : findStudent st' sid = some s' := by
        rw [← hst, findStudent_saveCourse, findStudent_saveStudent, hs]
        simp [hsid']
      have hfind2 : findCourse st' cid = some c' := by
        rw [← hst, findCourse_saveCourse, findCourse_saveStudent, hc]
        simp [hcid']
      have hsave1 : saveStudent st' s' = st' := by
        conv_lhs => rw [← hst]
        rw [saveStudent_saveCourse, saveStudent_idem, hst]
      have hsave2 : saveCourse st' c' = st' := by
        conv_lhs => rw [← hst]
        rw [saveCourse_idem, hst]
      simp only [enrollStudent, hfind1, hfind2, Option.isNone_some, Bool.false_eq_true, if_false]
      rw [if_pos hm1, if_pos hm2, hsave1, hsave2, hret]

/-- Witness for C4: re-enrolling the already enrolled pair returns the same
student and the unchanged store. -/
theorem enrollStudent_idempotent_witness :
    enrollStudent (some demoToken) "s1" "c1" demoStoreEnrolled =
      .ok ({ alice with courses := ["c1"] }, demoStoreEnrolled) :=
  enrollStudent_idempotent demoToken "s1" "c1" demoStore demoStoreEnrolled
    { alice with courses := ["c1"] } (by rfl)

/-- **C5**: with a valid caller identity, `unenrollStudent` fails with
NotFound iff either id does not resolve; otherwise it removes the pairing
from both arrays, persists both documents (visible on an immediate read),
returns the updated student, and on a non-enrolled pair leaves both
documents' arrays unchanged rather than erroring. -/
theorem unenrollStudent_spec (u : Token) (sid cid : String) (st : Store) :
    (unenrollStudent (some u) sid cid st = .error "Invalid IDs" ↔
      (findStudent st sid = none ∨ findCourse st cid = none)) ∧
    (∀ student course, findStudent st sid = some student → findCourse st cid = some course →
      ∃ st', unenrollStudent (some u) sid cid st =
          .ok ({ student with courses := student.courses.filter (fun x => x ≠ cid) }, st') ∧
        findStudent st' sid =
          some { student with courses := student.courses.filter (fun x => x ≠ cid) } ∧
        findCourse st' cid =
          some { course with students := course.students.filter (fun x => x ≠ sid) } ∧
        cid ∉ (student.courses.filter (fun x => x ≠ cid)) ∧
        sid ∉ (course.students.filter (fun x => x ≠ sid)) ∧
        (cid ∉ student.courses → student.courses.filter (fun x => x ≠ cid) = student.courses) ∧
        (sid ∉ course.students → course.students.filter (fun x => x ≠ sid) = course.students)) := by
  constructor
  · cases hs : findStudent st sid with
    | none => simp [unenrollStudent, hs]
    | some student =>
      cases hc : findCourse st cid with
      | none => simp [unenrollStudent, hs, hc]
      | some course => simp [unenrollStudent, hs, hc]
  · intro student course hs hc
    refine ⟨saveCourse
        (saveStudent st { student with courses := student.courses.filter (fun x => x ≠ cid) })
        { course with students := course.students.filter (fun x => x ≠ sid) },
      ?_, ?_, ?_, ?_, ?_, ?_, ?_⟩
    · simp only [unenrollStudent, hs, hc, Option.isNone_some, Bool.false_eq_true, if_false]
    · rw [findStudent_saveCourse, findStudent_saveStudent, hs]
      simp
    · rw [findCourse_saveCourse, findCourse_saveStudent, hc]
      simp
    · simp [List.mem_filter]
    · simp [List.mem_filter]
    · intro hno
      apply List.filter_eq_self.mpr
      intro x hx
      simp only [ne_eq, decide_not, Bool.not_eq_eq_eq_not, Bool.not_true, decide_eq_false_iff_not]
      intro heq
      exact hno (heq ▸ hx)
    · intro hno
      apply List.filter_eq_self.mpr
      intro x hx
      simp only [ne_eq, decide_not, Bool.not_eq_eq_eq_not, Bool.not_true, decide_eq_false_iff_not]
      intro heq
      exact hno (heq ▸ hx)

/-- Witness for C5: unenrolling a non-enrolled pair succeeds as a no-op. -/
theorem unenrollStudent_spec_witness :
    ∃ st', unenrollStudent (some demoToken) "s1" "c1" demoStore = .ok (alice, st') ∧
      findStudent st' "s1" = some alice ∧
      findCourse st' "c1" = some mathCourse ∧
      "c1" ∉ alice.courses ∧ "s1" ∉ mathCourse.students ∧
      ("c1" ∉ alice.courses → alice.courses.filter (fun x => x ≠ "c1") = alice.courses) ∧
      ("s1" ∉ mathCourse.students →
        mathCourse.students.filter (fun x => x ≠ "s1") = mathCourse.students) :=
  (unenrollStudent_spec demoToken "s1" "c1" demoStore).2 alice mathCourse (by rfl) (by rfl)

/-- **C7**: deleting an existing student pulls its id from *every* course's
`students` array (the bulk update is not scoped to the student's own
`courses` list, so it also repairs one-sided drift), and symmetrically for
`deleteCourse`. -/
theorem delete_cascades (u : Token) (id : String) (st : Store) :
    (∀ s, findStudent st id = some s →
      ∃ st', deleteStudent (some u) id st = .ok (true, st') ∧
        (∀ c ∈ st'.courses, id ∉ c.students) ∧ findStudent st' id = none) ∧
    (∀ c, findCourse st id = some c →
      ∃ st', deleteCourse (some u) id st = .ok (true, st') ∧
        (∀ s ∈ st'.students, id ∉ s.courses) ∧ findCourse st' id = none) := by
  constructor
  · intro s hs
    refine ⟨{ students := st.students.filter (fun x => x.id ≠ id),
              courses := st.courses.map
                (fun c => { c with students := c.students.filter (fun x => x ≠ id) }) },
            ?_, ?_, ?_⟩
    · simp only [deleteStudent, hs, Option.isNone_some, Bool.false_eq_true, if_false]
    · intro c hc
      obtain ⟨c0, _, rfl⟩ := List.mem_map.mp hc
      simp [List.mem_filter]
    · apply List.find?_eq_none.mpr
      intro x hx
      have := (List.mem_filter.mp hx).2
      simpa using this
  · intro c hc
    refine ⟨{ students := st.students.map
                (fun s => { s with courses := s.courses.filter (fun x => x ≠ id) }),
              courses := st.courses.filter (fun x => x.id ≠ id) },
            ?_, ?_, ?_⟩
    · simp only [deleteCourse, hc, Option.isNone_some, Bool.false_eq_true, if_false]
    · intro s hsm
      obtain ⟨s0, _, rfl⟩ := List.mem_map.mp hsm
      simp [List.mem_filter]
    · apply List.find?_eq_none.mpr
      intro x hx
      have := (List.mem_filter.mp hx).2
      simpa using this

/-- Witness for C7: deleting `alice` from the drifted store clears her id
from the course that listed her even though her own array was empty. -/
theorem delete_cascades_witness :
    ∃ st', deleteStudent (some demoToken) "s1" driftStore = .ok (true, st') ∧
      (∀ c ∈ st'.courses, "s1" ∉ c.students) ∧ findStudent st' "s1" = none :=
  (delete_cascades demoToken "s1" driftStore).1 alice (by rfl)

/-! ## Preservation of the bidirectional invariant (C1) -/

theorem studentIds_saveStudent (st : Store) (s' : Student) :
    (saveStudent st s').students.map Student.id = st.students.map Student.id := by
  simp only [saveStudent, List.map_map]
  apply List.map_congr_left
  intro a _
  simp only [Function.comp_apply]
  by_cases h : a.id = s'.id <;> simp [h]

theorem courseIds_saveCourse (st : Store) (c' : Course) :
    (saveCourse st c').courses.map Course.id = st.courses.map Course.id := by
  simp only [saveCourse, List.map_map]
  apply List.map_congr_left
  intro a _
  simp only [Function.comp_apply]
  by_cases h : a.id = c'.id <;> simp [h]

theorem Inv_empty : Inv emptyStore := by
  refine ⟨?_, ?_, ?_, ?_, ?_⟩ <;> simp [emptyStore]

theorem inv_addStudent {ctx : Ctx} {input : StudentInput} {newId : String}
    {ret : Student} {st st' : Store}
    (hfresh : findStudent st newId = none)
    (h : addStudent ctx input newId st = .ok (ret, st')) (hInv : Inv st) : Inv st' := by
  cases ctx with
  | none => simp [addStudent] at h
  | some tok =>
    simp only [addStudent, Option.isNone_some, Bool.false_eq_true, if_false] at h
    split_ifs at h with h1 h2 h3
    · simp only [Except.ok.injEq, Prod.mk.injEq] at h
      obtain ⟨-, hst⟩ := h
      subst hst
      have hfr : ∀ x ∈ st.students, x.id ≠ newId := by
        intro x hx
        have := List.find?_eq_none.mp hfresh x hx
        simpa using this
      refine ⟨?_, ?_, ?_, ?_, ?_⟩
      · intro s1 hs1 c1 hc1
        simp only [List.mem_append, List.mem_singleton] at hs1
        rcases hs1 with hs1 | rfl
        · exact hInv.bidir s1 hs1 c1 hc1
        · constructor
          · intro hmem
            exact absurd hmem (List.not_mem_nil _)
          · intro hmem
            obtain ⟨s0, hs0, hid⟩ := hInv.studentsValid c1 hc1 _ hmem
            exact absurd hid (hfr s0 hs0)
      · intro s1 hs1 cid1 hcid1
        simp only [List.mem_append, List.mem_singleton] at hs1
        rcases hs1 with hs1 | rfl
        · exact hInv.coursesValid s1 hs1 cid1 hcid1
        · exact absurd hcid1 (List.not_mem_nil _)
      · intro c1 hc1 sid1 hsid1
        obtain ⟨s0, hs0, hid⟩ := hInv.studentsValid c1 hc1 sid1 hsid1
        exact ⟨s0, List.mem_append_left _ hs0, hid⟩
      · rw [List.map_append]
        refine List.Nodup.append hInv.sNodup (by simp) ?_
        intro x hx1 hx2
        simp only [List.map_cons, List.map_nil, List.mem_singleton] at hx2
        obtain ⟨s0, hs0, hid⟩ := List.mem_map.mp hx1
        subst hx2
        exact hfr s0 hs0 hid
      · exact hInv.cNodup

theorem inv_addCourse {ctx : Ctx} {input : CourseInput} {newId : String}
    {ret : Course} {st st' : Store}
    (hfresh : findCourse st newId = none)
    (h : addCourse ctx input newId st = .ok (ret, st')) (hInv : Inv st) : Inv st' := by
  cases ctx with
  | none => simp [addCourse] at h
  | some tok =>
    simp only [addCourse, Option.isNone_some, Bool.false_eq_true, if_false] at h
    split_ifs at h with h1 h2
    · simp only [Except.ok.injEq, Prod.mk.injEq] at h
      obtain ⟨-, hst⟩ := h
      subst hst
      have hfr : ∀ x ∈ st.courses, x.id ≠ newId := by
        intro x hx
        have := List.find?_eq_none.mp hfresh x hx
        simpa using this
      refine ⟨?_, ?_, ?_, ?_, ?_⟩
      · intro s1 hs1 c1 hc1
        simp only [List.mem_append, List.mem_singleton] at hc1
        rcases hc1 with hc1 | rfl
        · exact hInv.bidir s1 hs1 c1 hc1
        · constructor
          · intro hmem
            obtain ⟨c0, hc0, hid⟩ := hInv.coursesValid s1 hs1 _ hmem
            exact absurd hid (hfr c0 hc0)
          · intro hmem
            exact absurd hmem (List.not_mem_nil _)
      · intro s1 hs1 cid1 hcid1
        obtain ⟨c0, hc0, hid⟩ := hInv.coursesValid s1 hs1 cid1 hcid1
        exact ⟨c0, List.mem_append_left _ hc0, hid⟩
      · intro c1 hc1 sid1 hsid1
        simp only [List.mem_append, List.mem_singleton] at hc1
        rcases hc1 with hc1 | rfl
        · exact hInv.studentsValid c1 hc1 sid1 hsid1
        · exact absurd hsid1 (List.not_mem_nil _)
      · exact hInv.sNodup
      · rw [List.map_append]
        refine List.Nodup.append hInv.cNodup (by simp) ?_
        intro x hx1 hx2
        simp only [List.map_cons, List.map_nil, List.mem_singleton] at hx2
        obtain ⟨c0, hc0, hid⟩ := List.mem_map.mp hx1
        subst hx2
        exact hfr c0 hc0 hid

/-- Saving a student document whose id and `courses` array are unchanged
preserves the invariant. -/
theorem inv_saveStudent_nonrel {st : Store} {id : String} {s s2 : Student}
    (hInv : Inv st) (hs : findStudent st id = some s)
    (hid : s2.id = s.id) (hcourses : s2.courses = s.courses) :
    Inv (saveStudent st s2) := by
  have hsmem : s ∈ st.students := findStudent_some_mem hs
  have hkey : ∀ x ∈ st.students,
      ((if x.id = s2.id then s2 else x).id = x.id ∧
       (if x.id = s2.id then s2 else x).courses = x.courses) := by
    intro x hx
    by_cases hx2 : x.id = s2.id
    · have hxs : x = s := List.inj_on_of_nodup_map hInv.sNodup hx hsmem (by rw [hx2, hid])
      subst hxs
      rw [if_pos hx2]
      exact ⟨hid, hcourses⟩
    · simp [hx2]
  show Inv { st with students := st.students.map (fun x => if x.id = s2.id then s2 else x) }
  refine ⟨?_, ?_, ?_, ?_, ?_⟩
  · intro s1 hs1 c1 hc1
    obtain ⟨s0, hs0, rfl⟩ := List.mem_map.mp hs1
    obtain ⟨hid0, hc0⟩ := hkey s0 hs0
    rw [hid0, hc0]
    exact hInv.bidir s0 hs0 c1 hc1
  · intro s1 hs1 cid1 hcid1
    obtain ⟨s0, hs0, rfl⟩ := List.mem_map.mp hs1
    obtain ⟨hid0, hc0⟩ := hkey s0 hs0
    rw [hc0] at hcid1
    exact hInv.coursesValid s0 hs0 cid1 hcid1
  · intro c1 hc1 sid1 hsid1
    obtain ⟨s0, hs0, hid0⟩ := hInv.studentsValid c1 hc1 sid1 hsid1
    refine ⟨_, List.mem_map_of_mem _ hs0, ?_⟩
    rw [(hkey s0 hs0).1, hid0]
  · have heq : (st.students.map (fun x => if x.id = s2.id then s2 else x)).map Student.id =
        st.students.map Student.id := by
      rw [List.map_map]
      apply List.map_congr_left
      intro a ha
      exact (hkey a ha).1
    show ((st.students.map (fun x => if x.id = s2.id then s2 else x)).map Student.id).Nodup
    rw [heq]
    exact hInv.sNodup
  · exact hInv.cNodup

/-- Saving a course document whose id and `students` array are unchanged
preserves the invariant. -/
theorem inv_saveCourse_nonrel {st : Store} {id : String} {c c2 : Course}
    (hInv : Inv st) (hc : findCourse st id = some c)
    (hid : c2.id = c.id) (hstudents : c2.students = c.students) :
    Inv (saveCourse st c2) := by
  have hcmem : c ∈ st.courses := findCourse_some_mem hc
  have hkey : ∀ x ∈ st.courses,
      ((if x.id = c2.id then c2 else x).id = x.id ∧
       (if x.id = c2.id then c2 else x).students = x.students) := by
    intro x hx
    by_cases hx2 : x.id = c2.id
    · have hxc : x = c := List.inj_on_of_nodup_map hInv.cNodup hx hcmem (by rw [hx2, hid])
      subst hxc
      rw [if_pos hx2]
      exact ⟨hid, hstudents⟩
    · simp [hx2]
  show Inv { st with courses := st.courses.map (fun x => if x.id = c2.id then c2 else x) }
  refine ⟨?_, ?_, ?_, ?_, ?_⟩
  · intro s1 hs1 c1 hc1
    obtain ⟨c0, hc0, rfl⟩ := List.mem_map.mp hc1
    obtain ⟨hid0, hc0'⟩ := hkey c0 hc0
    rw [hid0, hc0']
    exact hInv.bidir s1 hs1 c0 hc0
  · intro s1 hs1 cid1 hcid1
    obtain ⟨c0, hc0, hid0⟩ := hInv.coursesValid s1 hs1 cid1 hcid1
    refine ⟨_, List.mem_map_of_mem _ hc0, ?_⟩
    rw [(hkey c0 hc0).1, hid0]
  · intro c1 hc1 sid1 hsid1
    obtain ⟨c0, hc0, rfl⟩ := List.mem_map.mp hc1
    obtain ⟨hid0, hc0'⟩ := hkey c0 hc0
    rw [hc0'] at hsid1
    exact hInv.studentsValid c0 hc0 sid1 hsid1
  · exact hInv.sNodup
  · have heq : (st.courses.map (fun x => if x.id = c2.id then c2 else x)).map Course.id =
        st.courses.map Course.id := by
      rw [List.map_map]
      apply List.map_congr_left
      intro a ha
      exact (hkey a ha).1
    show ((st.courses.map (fun x => if x.id = c2.id then c2 else x)).map Course.id).Nodup
    rw [heq]
    exact hInv.cNodup

theorem inv_updateStudent {ctx : Ctx} {id : String} {input : StudentUpdateInput}
    {ret : Student} {st st' : Store}
    (h : updateStudent ctx id input st = .ok (ret, st')) (hInv : Inv st) : Inv st' := by
  cases ctx with
  | none => simp [updateStudent] at h
  | some tok =>
    simp only [updateStudent, Option.isNone_some, Bool.false_eq_true, if_false] at h
    split_ifs at h with h1
    cases hs : findStudent st id with
    | none => rw [hs] at h; exact Except.noConfusion h
    | some s =>
      rw [hs] at h
      simp only [Except.ok.injEq, Prod.mk.injEq] at h
      obtain ⟨-, hst⟩ := h
      subst hst
      exact inv_saveStudent_nonrel hInv hs rfl rfl

theorem inv_updateCourse {ctx : Ctx} {id : String} {input : CourseUpdateInput}
    {ret : Course} {st st' : Store}
    (h : updateCourse ctx id input st = .ok (ret, st')) (hInv : Inv st) : Inv st' := by
  cases ctx with
  | none => simp [updateCourse] at h
  | some tok =>
    simp only [updateCourse, Option.isNone_some, Bool.false_eq_true, if_false] at h
    cases hc : findCourse st id with
    | none => rw [hc] at h; exact Except.noConfusion h
    | some c =>
      rw [hc] at h
      simp only [Except.ok.injEq, Prod.mk.injEq] at h
      obtain ⟨-, hst⟩ := h
      subst hst
      exact inv_saveCourse_nonrel hInv hc rfl rfl

theorem inv_deleteStudent {ctx : Ctx} {id : String} {ret : Bool} {st st' : Store}
    (h : deleteStudent ctx id st = .ok (ret, st')) (hInv : Inv st) : Inv st' := by
  cases ctx with
  | none => simp [deleteStudent] at h
  | some tok =>
    simp only [deleteStudent, Option.isNone_some, Bool.false_eq_true, if_false] at h
    cases hs : findStudent st id with
    | none =>
      rw [hs] at h
      simp only [Except.ok.injEq, Prod.mk.injEq] at h
      obtain ⟨-, hst⟩ := h
      subst hst
      exact hInv
    | some s =>
      rw [hs] at h
      simp only [Except.ok.injEq, Prod.mk.injEq] at h
      obtain ⟨-, hst⟩ := h
      subst hst
      refine ⟨?_, ?_, ?_, ?_, ?_⟩
      · intro s1 hs1 c1 hc1
        obtain ⟨hs10, hs1ne⟩ := List.mem_filter.mp hs1
        have hs1ne' : s1.id ≠ id := by simpa using hs1ne
        obtain ⟨c0, hc0, rfl⟩ := List.mem_map.mp hc1
        show c0.id ∈ s1.courses ↔ s1.id ∈ c0.students.filter (fun x => x ≠ id)
        have hmem : s1.id ∈ c0.students.filter (fun x => x ≠ id) ↔ s1.id ∈ c0.students := by
          simp [List.mem_filter, hs1ne']
        rw [hmem]
        exact hInv.bidir s1 hs10 c0 hc0
      · intro s1 hs1 cid1 hcid1
        have hs10 := (List.mem_filter.mp hs1).1
        obtain ⟨c0, hc0, hcid0⟩ := hInv.coursesValid s1 hs10 cid1 hcid1
        exact ⟨_, List.mem_map_of_mem _ hc0, hcid0⟩
      · intro c1 hc1 sid1 hsid1
        obtain ⟨c0, hc0, rfl⟩ := List.mem_map.mp hc1
        obtain ⟨hin, hne⟩ := List.mem_filter.mp hsid1
        have hne' : sid1 ≠ id := by simpa using hne
        obtain ⟨s0, hs0, hid0⟩ := hInv.studentsValid c0 hc0 sid1 hin
        refine ⟨s0, List.mem_filter.mpr ⟨hs0, ?_⟩, hid0⟩
        simp [hid0, hne']
      · exact List.Nodup.sublist ((List.filter_sublist _).map _) hInv.sNodup
      · have heq : ((st.courses.map
            (fun c => { c with students := c.students.filter (fun x => x ≠ id) })).map
              Course.id) = st.courses.map Course.id := by
          rw [List.map_map]
          apply List.map_congr_left
          intro a _
          rfl
        show ((st.courses.map
            (fun c => { c with students := c.students.filter (fun x => x ≠ id) })).map
              Course.id).Nodup
        rw [heq]
        exact hInv.cNodup

theorem inv_deleteCourse {ctx : Ctx} {id : String} {ret : Bool} {st st' : Store}
    (h : deleteCourse ctx id st = .ok (ret, st')) (hInv : Inv st) : Inv st' := by
  cases ctx with
  | none => simp [deleteCourse] at h
  | some tok =>
    simp only [deleteCourse, Option.isNone_some, Bool.false_eq_true, if_false] at h
    cases hc : findCourse st id with
    | none =>
      rw [hc] at h
      simp only [Except.ok.injEq, Prod.mk.injEq] at h
      obtain ⟨-, hst⟩ := h
      subst hst
      exact hInv
    | some c =>
      rw [hc] at h
      simp only [Except.ok.injEq, Prod.mk.injEq] at h
      obtain ⟨-, hst⟩ := h
      subst hst
      refine ⟨?_, ?_, ?_, ?_, ?_⟩
      · intro s1 hs1 c1 hc1
        obtain ⟨hc10, hc1ne⟩ := List.mem_filter.mp hc1
        have hc1ne' : c1.id ≠ id := by simpa using hc1ne
        obtain ⟨s0, hs0, rfl⟩ := List.mem_map.mp hs1
        show c1.id ∈ s0.courses.filter (fun x => x ≠ id) ↔ s0.id ∈ c1.students
        have hmem : c1.id ∈ s0.courses.filter (fun x => x ≠ id) ↔ c1.id ∈ s0.courses := by
          simp [List.mem_filter, hc1ne']
        rw [hmem]
        exact hInv.bidir s0 hs0 c1 hc10
      · intro s1 hs1 cid1 hcid1
        obtain ⟨s0, hs0, rfl⟩ := List.mem_map.mp hs1
        obtain ⟨hin, hne⟩ := List.mem_filter.mp hcid1
        have hne' : cid1 ≠ id := by simpa using hne
        obtain ⟨c0, hc0, hid0⟩ := hInv.coursesValid s0 hs0 cid1 hin
        refine ⟨c0, List.mem_filter.mpr ⟨hc0, ?_⟩, hid0⟩
        simp [hid0, hne']
      · intro c1 hc1 sid1 hsid1
        have hc10 := (List.mem_filter.mp hc1).1
        obtain ⟨s0, hs0, hsid0⟩ := hInv.studentsValid c1 hc10 sid1 hsid1
        exact ⟨_, List.mem_map_of_mem _ hs0, hsid0⟩
      · have heq : ((st.students.map
            (fun s => { s with courses := s.courses.filter (fun x => x ≠ id) })).map
              Student.id) = st.students.map Student.id := by
          rw [List.map_map]
          apply List.map_congr_left
          intro a _
          rfl
        show ((st.students.map
            (fun s => { s with courses := s.courses.filter (fun x => x ≠ id) })).map
              Student.id).Nodup
        rw [heq]
        exact hInv.sNodup
      · exact List.Nodup.sublist ((List.filter_sublist _).map _) hInv.cNodup

theorem inv_enroll {ctx : Ctx} {sid cid : String} {ret : Student} {st st' : Store}
    (h : enrollStudent ctx sid cid st = .ok (ret, st')) (hInv : Inv st) : Inv st' := by
  cases ctx with
  | none => simp [enrollStudent] at h
  | some tok =>
    cases hs : findStudent st sid with
    | none => simp [enrollStudent, hs] at h
    | some student =>
      cases hc : findCourse st cid with
      | none => simp [enrollStudent, hs, hc] at h
      | some course =>
        simp only [enrollStudent, hs, hc, Option.isNone_some, Bool.false_eq_true,
          if_false, Except.ok.injEq, Prod.mk.injEq] at h
        obtain ⟨-, hst⟩ := h
        subst hst
        have hsid : student.id = sid := findStudent_some_id hs
        have hcid : course.id = cid := findCourse_some_id hc
        have hsmem : student ∈ st.students := findStudent_some_mem hs
        have hcmem : course ∈ st.courses := findCourse_some_mem hc
        set s' : Student := (if cid ∈ student.courses then student
          else { student with courses := student.courses ++ [cid] }) with hs'
        set c' : Course := (if sid ∈ course.students then course
          else { course with students := course.students ++ [sid] }) with hc'
        have hsid' : s'.id = student.id := by
          rw [hs']
          by_cases hmem : cid ∈ student.courses <;> simp [hmem]
        have hcid' : c'.id = course.id := by
          rw [hc']
          by_cases hmem : sid ∈ course.students <;> simp [hmem]
        have hm1 : cid ∈ s'.courses := by
          rw [hs']
          by_cases hmem : cid ∈ student.courses <;> simp [hmem]
        have hm2 : sid ∈ c'.students := by
          rw [hc']
          by_cases hmem : sid ∈ course.students <;> simp [hmem]
        have hsub1 : ∀ x, x ∈ s'.courses → x ∈ student.courses ∨ x = cid := by
          intro x hx
          rw [hs'] at hx
          by_cases hmem : cid ∈ student.courses
          · rw [if_pos hmem] at hx
            exact .inl hx
          · rw [if_neg hmem] at hx
            simpa using hx
        have hsub2 : ∀ x, x ∈ c'.students → x ∈ course.students ∨ x = sid := by
          intro x hx
          rw [hc'] at hx
          by_cases hmem : sid ∈ course.students
          · rw [if_pos hmem] at hx
            exact .inl hx
          · rw [if_neg hmem] at hx
            simpa using hx
        have hiff1 : ∀ x, x ≠ cid → (x ∈ s'.courses ↔ x ∈ student.courses) := by
          intro x hne
          constructor
          · intro hx
            rcases hsub1 x hx with hx | hx
            · exact hx
            · exact absurd hx hne
          · intro hx
            rw [hs']
            by_cases hmem : cid ∈ student.courses <;> simp [hmem, hx]
        have hiff2 : ∀ x, x ≠ sid → (x ∈ c'.students ↔ x ∈ course.students) := by
          intro x hne
          constructor
          · intro hx
            rcases hsub2 x hx with hx | hx
            · exact hx
            · exact absurd hx hne
          · intro hx
            rw [hc']
            by_cases hmem : sid ∈ course.students <;> simp [hmem, hx]
        have hxstudent : ∀ x ∈ st.students, x.id = s'.id → x = student := by
          intro x hx hxid
          exact List.inj_on_of_nodup_map hInv.sNodup hx hsmem (by rw [hxid, hsid'])
        have hycourse : ∀ y ∈ st.courses, y.id = c'.id → y = course := by
          intro y hy hyid
          exact List.inj_on_of_nodup_map hInv.cNodup hy hcmem (by rw [hyid, hcid'])
        have hfid : ∀ x : Student, (if x.id = s'.id then s' else x).id = x.id := by
          intro x
          by_cases hx : x.id = s'.id <;> simp [hx]
        have hgid : ∀ y : Course, (if y.id = c'.id then c' else y).id = y.id := by
          intro y
          by_cases hy : y.id = c'.id <;> simp [hy]
        show Inv { students := st.students.map (fun x => if x.id = s'.id then s' else x),
                   courses := st.courses.map (fun y => if y.id = c'.id then c' else y) }
        refine ⟨?_, ?_, ?_, ?_, ?_⟩
        · intro s1 hs1 c1 hc1
          obtain ⟨s0, hs0, rfl⟩ := List.mem_map.mp hs1
          obtain ⟨c0, hc0, rfl⟩ := List.mem_map.mp hc1
          by_cases hxs : s0.id = s'.id
          · have hs0eq : s0 = student := hxstudent s0 hs0 hxs
            subst hs0eq
            rw [if_pos hxs]
            by_cases hyc : c0.id = c'.id
            · have hc0eq : c0 = course := hycourse c0 hc0 hyc
              subst hc0eq
              rw [if_pos hyc]
              constructor
              · intro _
                rw [hsid', hsid]
                exact hm2
              · intro _
                rw [hcid', hcid]
                exact hm1
            · rw [if_neg hyc]
              have hne : c0.id ≠ cid := fun hh => hyc (by rw [hh, hcid', hcid])
              rw [hiff1 c0.id hne, hsid']
              exact hInv.bidir s0 hs0 c0 hc0
          · rw [if_neg hxs]
            by_cases hyc : c0.id = c'.id
            · have hc0eq : c0 = course := hycourse c0 hc0 hyc
              subst hc0eq
              rw [if_pos hyc]
              have hne : s0.id ≠ sid := fun hh => hxs (by rw [hh, hsid', hsid])
              rw [hiff2 s0.id hne, hcid']
              exact hInv.bidir s0 hs0 c0 hc0
            · rw [if_neg hyc]
              exact hInv.bidir s0 hs0 c0 hc0
        · intro s1 hs1 cid1 hcid1
          obtain ⟨s0, hs0, rfl⟩ := List.mem_map.mp hs1
          have hexists : (∃ c0 ∈ st.courses, c0.id = cid1) →
              ∃ c1 ∈ st.courses.map (fun y => if y.id = c'.id then c' else y), c1.id = cid1 := by
            rintro ⟨c0, hc0, rfl⟩
            exact ⟨_, List.mem_map_of_mem _ hc0, hgid c0⟩
          by_cases hxs : s0.id = s'.id
          · have hs0eq : s0 = student := hxstudent s0 hs0 hxs
            subst hs0eq
            rw [if_pos hxs] at hcid1
            rcases hsub1 cid1 hcid1 with hin | rfl
            · exact hexists (hInv.coursesValid s0 hs0 cid1 hin)
            · exact hexists ⟨course, hcmem, hcid⟩
          · rw [if_neg hxs] at hcid1
            exact hexists (hInv.coursesValid s0 hs0 cid1 hcid1)
        · intro c1 hc1 sid1 hsid1
          obtain ⟨c0, hc0, rfl⟩ := List.mem_map.mp hc1
          have hexists : (∃ s0 ∈ st.students, s0.id = sid1) →
              ∃ s1 ∈ st.students.map (fun x => if x.id = s'.id then s' else x), s1.id = sid1 := by
            rintro ⟨s0, hs0, rfl⟩
            exact ⟨_, List.mem_map_of_mem _ hs0, hfid s0⟩
          by_cases hyc : c0.id = c'.id
          · have hc0eq : c0 = course := hycourse c0 hc0 hyc
            subst hc0eq
            rw [if_pos hyc] at hsid1
            rcases hsub2 sid1 hsid1 with hin | rfl
            · exact hexists (hInv.studentsValid c0 hc0 sid1 hin)
            · exact hexists ⟨student, hsmem, hsid⟩
          · rw [if_neg hyc] at hsid1
            exact hexists (hInv.studentsValid c0 hc0 sid1 hsid1)
        · have heq : ((st.students.map (fun x => if x.id = s'.id then s' else x)).map
              Student.id) = st.students.map Student.id := by
            rw [List.map_map]
            apply List.map_congr_left
            intro a _
            exact hfid a
          show ((st.students.map (fun x => if x.id = s'.id then s' else x)).map Student.id).Nodup
          rw [heq]
          exact hInv.sNodup
        · have heq : ((st.courses.map (fun y => if y.id = c'.id then c' else y)).map
              Course.id) = st.courses.map Course.id := by
            rw [List.map_map]
            apply List.map_congr_left
            intro a _
            exact hgid a
          show ((st.courses.map (fun y => if y.id = c'.id then c' else y)).map Course.id).Nodup
          rw [heq]
          exact hInv.cNodup

theorem inv_unenroll {ctx : Ctx} {sid cid : String} {ret : Student} {st st' : Store}
    (h : unenrollStudent ctx sid cid st = .ok (ret, st')) (hInv : Inv st) : Inv st' := by
  cases ctx with
  | none => simp [unenrollStudent] at h
  | some tok =>
    cases hs : findStudent st sid with
    | none => simp [unenrollStudent, hs] at h
    | some student =>
      cases hc : findCourse st cid with
      | none => simp [unenrollStudent, hs, hc] at h
      | some course =>
        simp only [unenrollStudent, hs, hc, Option.isNone_some, Bool.false_eq_true,
          if_false, Except.ok.injEq, Prod.mk.injEq] at h
        obtain ⟨-, hst⟩ := h
        subst hst
        have hsid : student.id = sid := findStudent_some_id hs
        have hcid : course.id = cid := findCourse_some_id hc
        have hsmem : student ∈ st.students := findStudent_some_mem hs
        have hcmem : course ∈ st.courses := findCourse_some_mem hc
        set s' : Student :=
          { student with courses := student.courses.filter (fun x => x ≠ cid) } with hs'
        set c' : Course :=
          { course with students := course.students.filter (fun x => x ≠ sid) } with hc'
        have hsid' : s'.id = student.id := rfl
        have hcid' : c'.id = course.id := rfl
        have hnot1 : cid ∉ s'.courses := by
          rw [hs']
          simp [List.mem_filter]
        have hnot2 : sid ∉ c'.students := by
          rw [hc']
          simp [List.mem_filter]
        have hsub1 : ∀ x, x ∈ s'.courses → x ∈ student.courses := by
          intro x hx
          rw [hs'] at hx
          exact (List.mem_filter.mp hx).1
        have hsub2 : ∀ x, x ∈ c'.students → x ∈ course.students := by
          intro x hx
          rw [hc'] at hx
          exact (List.mem_filter.mp hx).1
        have hiff1 : ∀ x, x ≠ cid → (x ∈ s'.courses ↔ x ∈ student.courses) := by
          intro x hne
          rw [hs']
          simp [List.mem_filter, hne]
        have hiff2 : ∀ x, x ≠ sid → (x ∈ c'.students ↔ x ∈ course.students) := by
          intro x hne
          rw [hc']
          simp [List.mem_filter, hne]
        have hxstudent : ∀ x ∈ st.students, x.id = s'.id → x = student := by
          intro x hx hxid
          exact List.inj_on_of_nodup_map hInv.sNodup hx hsmem (by rw [hxid, hsid'])
        have hycourse : ∀ y ∈ st.courses, y.id = c'.id → y = course := by
          intro y hy hyid
          exact List.inj_on_of_nodup_map hInv.cNodup hy hcmem (by rw [hyid, hcid'])
        have hfid : ∀ x : Student, (if x.id = s'.id then s' else x).id = x.id := by
          intro x
          by_cases hx : x.id = s'.id <;> simp [hx]
        have hgid : ∀ y : Course, (if y.id = c'.id then c' else y).id = y.id := by
          intro y
          by_cases hy : y.id = c'.id <;> simp [hy]
        show Inv { students := st.students.map (fun x => if x.id = s'.id then s' else x),
                   courses := st.courses.map (fun y => if y.id = c'.id then c' else y) }
        refine ⟨?_, ?_, ?_, ?_, ?_⟩
        · intro s1 hs1 c1 hc1
          obtain ⟨s0, hs0, rfl⟩ := List.mem_map.mp hs1
          obtain ⟨c0, hc0, rfl⟩ := List.mem_map.mp hc1
          by_cases hxs : s0.id = s'.id
          · have hs0eq : s0 = student := hxstudent s0 hs0 hxs
            subst hs0eq
            rw [if_pos hxs]
            by_cases hyc : c0.id = c'.id
            · have hc0eq : c0 = course := hycourse c0 hc0 hyc
              subst hc0eq
              rw [if_pos hyc]
              constructor
              · intro hmem
                rw [hcid', hcid] at hmem
                exact absurd hmem hnot1
              · intro hmem
                rw [hsid', hsid] at hmem
                exact absurd hmem hnot2
            · rw [if_neg hyc]
              have hne : c0.id ≠ cid := fun hh => hyc (by rw [hh, hcid', hcid])
              rw [hiff1 c0.id hne, hsid']
              exact hInv.bidir s0 hs0 c0 hc0
          · rw [if_neg hxs]
            by_cases hyc : c0.id = c'.id
            · have hc0eq : c0 = course := hycourse c0 hc0 hyc
              subst hc0eq
              rw [if_pos hyc]
              have hne : s0.id ≠ sid := fun hh => hxs (by rw [hh, hsid', hsid])
              rw [hiff2 s0.id hne, hcid']
              exact hInv.bidir s0 hs0 c0 hc0
            · rw [if_neg hyc]
              exact hInv.bidir s0 hs0 c0 hc0
        · intro s1 hs1 cid1 hcid1
          obtain ⟨s0, hs0, rfl⟩ := List.mem_map.mp hs1
          have hexists : (∃ c0 ∈ st.courses, c0.id = cid1) →
              ∃ c1 ∈ st.courses.map (fun y => if y.id = c'.id then c' else y), c1.id = cid1 := by
            rintro ⟨c0, hc0, rfl⟩
            exact ⟨_, List.mem_map_of_mem _ hc0, hgid c0⟩
          by_cases hxs : s0.id = s'.id
          · have hs0eq : s0 = student := hxstudent s0 hs0 hxs
            subst hs0eq
            rw [if_pos hxs] at hcid1
            exact hexists (hInv.coursesValid s0 hs0 cid1 (hsub1 cid1 hcid1))
          · rw [if_neg hxs] at hcid1
            exact hexists (hInv.coursesValid s0 hs0 cid1 hcid1)
        · intro c1 hc1 sid1 hsid1
          obtain ⟨c0, hc0, rfl⟩ := List.mem_map.mp hc1
          have hexists : (∃ s0 ∈ st.students, s0.id = sid1) →
              ∃ s1 ∈ st.students.map (fun x => if x.id = s'.id then s' else x), s1.id = sid1 := by
            rintro ⟨s0, hs0, rfl⟩
            exact ⟨_, List.mem_map_of_mem _ hs0, hfid s0⟩
          by_cases hyc : c0.id = c'.id
          · have hc0eq : c0 = course := hycourse c0 hc0 hyc
            subst hc0eq
            rw [if_pos hyc] at hsid1
            exact hexists (hInv.studentsValid c0 hc0 sid1 (hsub2 sid1 hsid1))
          · rw [if_neg hyc] at hsid1
            exact hexists (hInv.studentsValid c0 hc0 sid1 hsid1)
        · have heq : ((st.students.map (fun x => if x.id = s'.id then s' else x)).map
              Student.id) = st.students.map Student.id := by
            rw [List.map_map]
            apply List.map_congr_left
            intro a _
            exact hfid a
          show ((st.students.map (fun x => if x.id = s'.id then s' else x)).map Student.id).Nodup
          rw [heq]
          exact hInv.sNodup
        · have heq : ((st.courses.map (fun y => if y.id = c'.id then c' else y)).map
              Course.id) = st.courses.map Course.id := by
            rw [List.map_map]
            apply List.map_congr_left
            intro a _
            exact hgid a
          show ((st.courses.map (fun y => if y.id = c'.id then c' else y)).map Course.id).Nodup
          rw [heq]
          exact hInv.cNodup

theorem inv_step {st st' : Store} (h : Step st st') (hInv : Inv st) : Inv st' := by
  cases h with
  | stepAddStudent ctx input newId ret _ _ hfresh hop => exact inv_addStudent hfresh hop hInv
  | stepUpdateStudent ctx id input ret _ _ hop => exact inv_updateStudent hop hInv
  | stepDeleteStudent ctx id ret _ _ hop => exact inv_deleteStudent hop hInv
  | stepAddCourse ctx input newId ret _ _ hfresh hop => exact inv_addCourse hfresh hop hInv
  | stepUpdateCourse ctx id input ret _ _ hop => exact inv_updateCourse hop hInv
  | stepDeleteCourse ctx id ret _ _ hop => exact inv_deleteCourse hop hInv
  | stepEnroll ctx studentId courseId ret _ _ hop => exact inv_enroll hop hInv
  | stepUnenroll ctx studentId courseId ret _ _ hop => exact inv_unenroll hop hInv

theorem inv_reachable {st : Store} (h : Reachable st) : Inv st := by
  induction h with
  | refl => exact Inv_empty
  | tail _ hstep ih => exact inv_step hstep ih

/-- **C1**: in every store state reachable from the empty store by completed
mutations, the bidirectional relation invariant holds: a course id is in a
student's `courses` array iff the student's id is in that course's
`students` array. -/
theorem bidirectional_invariant (st : Store) (h : Reachable st) :
    ∀ s ∈ st.students, ∀ c ∈ st.courses, (c.id ∈ s.courses ↔ s.id ∈ c.students) :=
  (inv_reachable h).bidir

/-- Witness for C1: in the state reached by addStudent, addCourse, enroll,
the invariant holds for the concrete enrolled pair. -/
theorem bidirectional_invariant_witness :
    (({ mathCourse with students := ["s1"] } : Course).id ∈
        ({ alice with courses := ["c1"] } : Student).courses ↔
      ({ alice with courses := ["c1"] } : Student).id ∈
        ({ mathCourse with students := ["s1"] } : Course).students) :=
  bidirectional_invariant demoStoreEnrolled
    (Relation.ReflTransGen.tail
      (Relation.ReflTransGen.tail
        (Relation.ReflTransGen.tail Relation.ReflTransGen.refl
          (Step.stepAddStudent (some demoToken)
            { name := "Alice", email := "alice@u.edu", age := 18 } "s1" alice
            emptyStore { students := [alice], courses := [] } (by rfl) (by rfl)))
        (Step.stepAddCourse (some demoToken)
          { title := "Math", code := "M1", credits := 3, instructor := "Noe" } "c1" mathCourse
          { students := [alice], courses := [] } demoStore (by rfl) (by rfl)))
      (Step.stepEnroll (some demoToken) "s1" "c1" { alice with courses := ["c1"] }
        demoStore demoStoreEnrolled (by rfl)))
    { alice with courses := ["c1"] } (by simp [demoStoreEnrolled])
    { mathCourse with students := ["s1"] } (by simp [demoStoreEnrolled])

end GraphqlApi
